import Mathlib

/-!
Verification development for the moltwire-plugin telemetry agent.

This file gives a shallow embedding, in Lean, of the plugin's core
components — the PII anonymizer (src/anonymizer.ts), the command
classifier (src/classifier.ts), the single-tier and two-tier event
buffers (src/buffer.ts and the SQLite-backed variant), the HTTP event
sender (src/sender.ts), the threat-signature matcher (src/threats.ts)
and the orchestrator's anomaly-tracking helpers (src/index.ts) — and
proves or refutes the behavioural properties stated in the
specification.

JavaScript strings are modelled as lists of characters, machine numbers
as Nat (all the quantities involved are non-negative; where JavaScript
would produce a negative intermediate value the truncated Nat
subtraction is shown at the use site to coincide), fallible calls
(SQLite transactions, HTTP requests) as explicit outcome parameters,
and the buffer's confirm closures as state-transforming functions.
-/

namespace Moltwire

/-! ## A small JavaScript-regex engine

The anonymizer and the domain extractor are built on JavaScript regular
expressions.  The patterns used by the plugin need: single-character
classes, literals (optionally case-insensitive), alternation of
literals, greedy option, greedy bounded/unbounded repetition of a
character class, and the zero-width word-boundary assertion.  The
matcher below implements leftmost search with greedy backtracking in
continuation-passing style, which is exactly the semantics JavaScript
gives these constructs.  Repetition is fuelled by the remaining string
length (each iteration consumes one character, so the fuel is never
exhausted before the string is). -/

/-- Regular-expression abstract syntax, covering the constructs used by
the plugin's patterns. -/
inductive RE where
  | eps : RE
  | cls (p : Char → Bool) : RE
  | lit (ci : Bool) (cs : List Char) : RE
  | alts (ci : Bool) (cands : List (List Char)) : RE
  | opt (r : RE) : RE
  | cat (r1 r2 : RE) : RE
  | rep (p : Char → Bool) (lo : Nat) (hi : Option Nat) : RE
  | wb : RE

/-- JavaScript word characters: [A-Za-z0-9_]. -/
def isWordChar (c : Char) : Bool := c.isAlphanum || c = '_'

/-- Is the character at index i (if any) a word character? -/
def wordAt (s : List Char) (i : Nat) : Bool :=
  match s[i]? with
  | some c => isWordChar c
  | none => false

/-- The word-boundary assertion at index i (between characters i-1 and i). -/
def wordBoundary (s : List Char) (i : Nat) : Bool :=
  match i with
  | 0 => wordAt s 0
  | j + 1 => wordAt s j != wordAt s (j + 1)

/-- Case-folding comparison used by the /i flag (ASCII case folding). -/
def ciEq (ci : Bool) (a b : Char) : Bool :=
  if ci then a.toLower == b.toLower else a == b

/-- Match a literal at index i; returns the index one past the literal. -/
def litMatch (ci : Bool) : List Char → List Char → Nat → Option Nat
  | [], _, i => some i
  | c :: cs, s, i =>
    match s[i]? with
    | some c2 => if ciEq ci c c2 then litMatch ci cs s (i + 1) else none
    | none => none

/-- Greedy repetition of a character class with backtracking, in CPS.
Arguments: fuel, minimum still required, optional maximum remaining,
current index. -/
def repGo (p : Char → Bool) (s : List Char) (k : Nat → Option Nat) :
    Nat → Nat → Option Nat → Nat → Option Nat
  | 0, lo, _, i => if lo = 0 then k i else none
  | fuel + 1, lo, hi, i =>
    let hiOk : Bool := match hi with | some 0 => false | _ => true
    let charOk : Bool := match s[i]? with | some c => p c | none => false
    if hiOk && charOk then
      match repGo p s k fuel (lo - 1) (Option.map (· - 1) hi) (i + 1) with
      | some e => some e
      | none => if lo = 0 then k i else none
    else if lo = 0 then k i else none

mutual

/-- Backtracking matcher in CPS: try to match the regex at index i of s,
then call the continuation with the index past the match; the first
success (in JavaScript's greedy, left-biased order) wins. -/
def matchRE : RE → List Char → Nat → (Nat → Option Nat) → Option Nat
  | .eps, _, i, k => k i
  | .cls p, s, i, k =>
    match s[i]? with
    | some c => if p c then k (i + 1) else none
    | none => none
  | .lit ci cs, s, i, k =>
    match litMatch ci cs s i with
    | some j => k j
    | none => none
  | .alts ci cands, s, i, k => altsGo ci cands s i k
  | .opt r, s, i, k =>
    match matchRE r s i k with
    | some e => some e
    | none => k i
  | .cat r1 r2, s, i, k => matchRE r1 s i (fun j => matchRE r2 s j k)
  | .rep p lo hi, s, i, k => repGo p s k (s.length + 1) lo hi i
  | .wb, s, i, k => if wordBoundary s i then k i else none

/-- Try a list of literal alternatives in order, backtracking into the
continuation. -/
def altsGo (ci : Bool) : List (List Char) → List Char → Nat → (Nat → Option Nat) → Option Nat
  | [], _, _, _ => none
  | cs :: rest, s, i, k =>
    match litMatch ci cs s i with
    | some j =>
      match k j with
      | some e => some e
      | none => altsGo ci rest s i k
    | none => altsGo ci rest s i k

end

/-- Leftmost match search: try indices i, i+1, … (fuelled; positions up
to and including s.length are attempted).  Returns (start, end). -/
def findFrom (r : RE) (s : List Char) : Nat → Nat → Option (Nat × Nat)
  | 0, _ => none
  | fuel + 1, i =>
    match matchRE r s i some with
    | some e => some (i, e)
    | none => if i < s.length then findFrom r s fuel (i + 1) else none

/-- Global replacement, as String.prototype.replace with a /g regex and
a fixed replacement string: successive leftmost matches are replaced,
scanning resumes after each match (advancing one character past an
empty match). -/
def replaceGo (r : RE) (rep : List Char) (s : List Char) : Nat → Nat → List Char
  | 0, i => s.drop i
  | fuel + 1, i =>
    match findFrom r s (s.length + 1) i with
    | none => s.drop i
    | some (b, e) =>
      ((s.drop i).take (b - i)) ++ rep ++
        (if e > b then replaceGo r rep s fuel e
         else
           match s[e]? with
           | some c => c :: replaceGo r rep s fuel (e + 1)
           | none => [])

/-- Replace every match of r in s by rep. -/
def replaceAll (r : RE) (s rep : List Char) : List Char :=
  replaceGo r rep s (s.length + 1) 0

/-! ## Anonymizer (src/anonymizer.ts)

The ten PII_PATTERNS, in source order. -/

/-- JavaScript \d. -/
def isDigitJs (c : Char) : Bool := c.isDigit

/-- JavaScript \s (the ASCII whitespace characters; the plugin's inputs
are ASCII). -/
def isSpaceJs (c : Char) : Bool :=
  c == ' ' || c == '\t' || c == '\n' || c == '\r' || c == '\x0b' || c == '\x0c'

/-- Right-associated concatenation of a list of regexes. -/
def cats : List RE → RE
  | [] => .eps
  | [r] => r
  | r :: rs => .cat r (cats rs)

/-- Pattern 1, email addresses: [a-zA-Z0-9._%+-]+@[a-zA-Z0-9.-]+\.[a-zA-Z]{2,} -/
def patEmail : RE :=
  cats [.rep (fun c => c.isAlphanum || c == '.' || c == '_' || c == '%' || c == '+' || c == '-') 1 none,
        .cls (fun c => c == '@'),
        .rep (fun c => c.isAlphanum || c == '.' || c == '-') 1 none,
        .cls (fun c => c == '.'),
        .rep (fun c => c.isAlpha) 2 none]

/-- Pattern 2, phone numbers: \b\d{3}[-.]?\d{3}[-.]?\d{4}\b -/
def patPhone1 : RE :=
  cats [.wb, .rep isDigitJs 3 (some 3),
        .opt (.cls (fun c => c == '-' || c == '.')),
        .rep isDigitJs 3 (some 3),
        .opt (.cls (fun c => c == '-' || c == '.')),
        .rep isDigitJs 4 (some 4), .wb]

/-- Pattern 3, international phone numbers:
\+\d{1,3}[-.\s]?\(?\d{1,4}\)?[-.\s]?\d{1,4}[-.\s]?\d{1,9} -/
def patPhone2 : RE :=
  cats [.cls (fun c => c == '+'),
        .rep isDigitJs 1 (some 3),
        .opt (.cls (fun c => c == '-' || c == '.' || isSpaceJs c)),
        .opt (.cls (fun c => c == '(')),
        .rep isDigitJs 1 (some 4),
        .opt (.cls (fun c => c == ')')),
        .opt (.cls (fun c => c == '-' || c == '.' || isSpaceJs c)),
        .rep isDigitJs 1 (some 4),
        .opt (.cls (fun c => c == '-' || c == '.' || isSpaceJs c)),
        .rep isDigitJs 1 (some 9)]

/-- Pattern 4, IP addresses: \b\d{1,3}\.\d{1,3}\.\d{1,3}\.\d{1,3}\b -/
def patIp : RE :=
  cats [.wb, .rep isDigitJs 1 (some 3), .cls (fun c => c == '.'),
        .rep isDigitJs 1 (some 3), .cls (fun c => c == '.'),
        .rep isDigitJs 1 (some 3), .cls (fun c => c == '.'),
        .rep isDigitJs 1 (some 3), .wb]

/-- Pattern 5, credit cards: \b\d{4}[-\s]?\d{4}[-\s]?\d{4}[-\s]?\d{4}\b -/
def patCard : RE :=
  cats [.wb, .rep isDigitJs 4 (some 4),
        .opt (.cls (fun c => c == '-' || isSpaceJs c)),
        .rep isDigitJs 4 (some 4),
        .opt (.cls (fun c => c == '-' || isSpaceJs c)),
        .rep isDigitJs 4 (some 4),
        .opt (.cls (fun c => c == '-' || isSpaceJs c)),
        .rep isDigitJs 4 (some 4), .wb]

/-- Pattern 6, SSNs: \b\d{3}[-]?\d{2}[-]?\d{4}\b -/
def patSsn : RE :=
  cats [.wb, .rep isDigitJs 3 (some 3),
        .opt (.cls (fun c => c == '-')),
        .rep isDigitJs 2 (some 2),
        .opt (.cls (fun c => c == '-')),
        .rep isDigitJs 4 (some 4), .wb]

/-- Pattern 7, API keys and tokens (case-insensitive):
\b(sk|pk|api|key|token|secret|password|auth)[-_]?[a-zA-Z0-9]{20,}\b -/
def patToken : RE :=
  cats [.wb,
        .alts true (["sk", "pk", "api", "key", "token", "secret", "password", "auth"].map String.toList),
        .opt (.cls (fun c => c == '-' || c == '_')),
        .rep (fun c => c.isAlphanum) 20 none,
        .wb]

/-- Pattern 8, macOS user paths: \/Users\/[^\/\s]+ -/
def patUsersPath : RE :=
  cats [.lit false "/Users/".toList,
        .rep (fun c => !(c == '/' || isSpaceJs c)) 1 none]

/-- Pattern 9, Linux home paths: \/home\/[^\/\s]+ -/
def patHomePath : RE :=
  cats [.lit false "/home/".toList,
        .rep (fun c => !(c == '/' || isSpaceJs c)) 1 none]

/-- Pattern 10, Windows user paths (case-insensitive): C:\\Users\\[^\\\/\s]+ -/
def patWinPath : RE :=
  cats [.lit true "C:\\Users\\".toList,
        .rep (fun c => !(c == '\\' || c == '/' || isSpaceJs c)) 1 none]

/-- PII_PATTERNS, in source order. -/
def PII_PATTERNS : List RE :=
  [patEmail, patPhone1, patPhone2, patIp, patCard, patSsn, patToken,
   patUsersPath, patHomePath, patWinPath]

/-- The fixed redaction marker. -/
def REDACTED : String := "[REDACTED]"

/-- scrubPII: apply each pattern in order, replacing every match with
the redaction marker. -/
def scrubPII (text : String) : String :=
  String.mk (PII_PATTERNS.foldl (fun acc r => replaceAll r acc REDACTED.toList) text.toList)

/-- A once-scrubbed text admits no further match of any pattern.  This
is the condition under which a second scrub is a no-op. -/
def NoResidualMatch (t : String) : Prop :=
  ∀ r ∈ PII_PATTERNS, findFrom r t.toList (t.toList.length + 1) 0 = none

instance (t : String) : Decidable (NoResidualMatch t) := by
  unfold NoResidualMatch; infer_instance

/-! ## Single-tier event buffer (src/buffer.ts)

The simple in-memory EventBuffer with FIFO eviction.  It is generic in
the event type (the source stores MoltwireEvent values; nothing about
the buffer inspects them). -/

/-- Hard cap shared by both buffer implementations. -/
def MAX_BUFFER_SIZE : Nat := 10000

/-- The in-memory EventBuffer of src/buffer.ts. -/
structure EventBuffer (E : Type) where
  buffer : List E
  maxSize : Nat
  flushBatchSize : Nat
  deriving DecidableEq

namespace EventBuffer

/-- Constructor: maxSize = min(maxMemorySize, MAX_BUFFER_SIZE). -/
def create (E : Type) (maxMemorySize flushBatchSize : Nat) : EventBuffer E :=
  ⟨[], min maxMemorySize MAX_BUFFER_SIZE, flushBatchSize⟩

/-- The eviction loop: while (buffer.length > maxSize) buffer.shift(). -/
def evict {E : Type} : List E → Nat → List E
  | [], _ => []
  | x :: t, n => if (x :: t).length ≤ n then x :: t else evict t n

/-- push: append, then evict oldest entries beyond maxSize. -/
def push {E : Type} (b : EventBuffer E) (e : E) : EventBuffer E :=
  { b with buffer := evict (b.buffer ++ [e]) b.maxSize }

/-- Push a whole list of events in order. -/
def pushAll {E : Type} (b : EventBuffer E) (es : List E) : EventBuffer E :=
  es.foldl push b

/-- flush: splice out the first flushBatchSize events.  The returned
pair is (selected events, buffer afterwards); the source's confirm
callback is a no-op ("Events already removed from buffer"), so no
confirm component is modelled. -/
def flush {E : Type} (b : EventBuffer E) : List E × EventBuffer E :=
  (b.buffer.take b.flushBatchSize, { b with buffer := b.buffer.drop b.flushBatchSize })

/-- size(). -/
def size {E : Type} (b : EventBuffer E) : Nat := b.buffer.length

/-- hasEvents(). -/
def hasEvents {E : Type} (b : EventBuffer E) : Bool := decide (0 < b.buffer.length)

end EventBuffer

/-! ## Two-tier event buffer (SQLite-backed variant of buffer.ts)

The EventBuffer with in-memory primary storage and SQLite overflow.
The SQLite table is modelled as a list of (id, event) rows in
created_at/rowid order (oldest first) together with the autoincrement
counter; db = none models a failed initializeDatabase.  Whether an
insert transaction succeeds is passed as an explicit outcome flag;
reads of an open database are modelled as succeeding, and stored rows
parse back to the event that was serialised. -/

/-- The SQLite-overflow EventBuffer. -/
structure SqliteEventBuffer (E : Type) where
  inMemoryBuffer : List E
  db : Option (List (Nat × E))
  nextId : Nat
  maxMemorySize : Nat
  flushBatchSize : Nat
  deriving DecidableEq

namespace SqliteEventBuffer

/-- Fresh two-tier buffer with a working (empty) database. -/
def create (E : Type) (maxMemorySize flushBatchSize : Nat) : SqliteEventBuffer E :=
  ⟨[], some [], 0, maxMemorySize, flushBatchSize⟩

/-- Attach autoincrement ids to a batch of inserted rows. -/
def withIds {E : Type} (start : Nat) : List E → List (Nat × E)
  | [] => []
  | e :: es => (start, e) :: withIds (start + 1) es

/-- The number of events splice removes in spillToSqlite:
splice(0, len - maxMemorySize / 2), JavaScript real division truncated
toward zero (and clamped at 0 when negative), which for naturals is
(2 * len - m) / 2 with truncated subtraction. -/
def spillCount (len m : Nat) : Nat := (2 * len - m) / 2

/-- enforceBufferLimit: if total count (db + memory) exceeds
MAX_BUFFER_SIZE, delete the oldest overflow rows until back at the cap. -/
def enforceBufferLimit {E : Type} (b : SqliteEventBuffer E) : SqliteEventBuffer E :=
  match b.db with
  | none => b
  | some rows =>
    let total := rows.length + b.inMemoryBuffer.length
    if total > MAX_BUFFER_SIZE then
      { b with db := some (rows.drop (total - MAX_BUFFER_SIZE)) }
    else b

/-- spillToSqlite: splice the oldest (len - m/2) events out of memory
and insert them into the overflow store in one transaction; on failure
unshift them back (restoring the memory tier exactly); on success run
enforceBufferLimit.  insertOk is the transaction outcome. -/
def spillToSqlite {E : Type} (b : SqliteEventBuffer E) (insertOk : Bool) : SqliteEventBuffer E :=
  match b.db with
  | none => b
  | some rows =>
    let k := spillCount b.inMemoryBuffer.length b.maxMemorySize
    let eventsToSpill := b.inMemoryBuffer.take k
    let remaining := b.inMemoryBuffer.drop k
    if insertOk then
      enforceBufferLimit
        { b with
          inMemoryBuffer := remaining,
          db := some (rows ++ withIds b.nextId eventsToSpill),
          nextId := b.nextId + eventsToSpill.length }
    else b

/-- push: append to the memory tier; spill when it exceeds its cap. -/
def push {E : Type} (b : SqliteEventBuffer E) (e : E) (insertOk : Bool) : SqliteEventBuffer E :=
  let b1 := { b with inMemoryBuffer := b.inMemoryBuffer ++ [e] }
  if b1.inMemoryBuffer.length > b1.maxMemorySize then spillToSqlite b1 insertOk else b1

/-- Push a list of events in order (every spill transaction succeeding). -/
def pushAll {E : Type} (b : SqliteEventBuffer E) (es : List E) : SqliteEventBuffer E :=
  es.foldl (fun acc e => push acc e true) b

/-- The result of flush(): the selected events, the buffer as it stands
after selection, and the confirm callback as a state transformer. -/
structure FlushResult (E : Type) where
  events : List E
  after : SqliteEventBuffer E
  confirm : SqliteEventBuffer E → SqliteEventBuffer E

/-- flush: prefer the overflow store (oldest rows first, up to
flushBatchSize); rows stay in the store until confirm deletes them by
id.  Only when the overflow store yields nothing is the memory tier
spliced, and then confirm is a no-op. -/
def flush {E : Type} (b : SqliteEventBuffer E) : FlushResult E :=
  match b.db with
  | none =>
    { events := b.inMemoryBuffer.take b.flushBatchSize,
      after := { b with inMemoryBuffer := b.inMemoryBuffer.drop b.flushBatchSize },
      confirm := fun t => t }
  | some rows =>
    if (rows.take b.flushBatchSize).isEmpty then
      { events := b.inMemoryBuffer.take b.flushBatchSize,
        after := { b with inMemoryBuffer := b.inMemoryBuffer.drop b.flushBatchSize },
        confirm := fun t => t }
    else
      { events := (rows.take b.flushBatchSize).map Prod.snd,
        after := b,
        confirm := fun t =>
          { t with db := t.db.map (fun rs => rs.filter
              (fun row => !(((rows.take b.flushBatchSize).map Prod.fst).contains row.fst))) } }

/-- size(): memory plus overflow count. -/
def size {E : Type} (b : SqliteEventBuffer E) : Nat :=
  b.inMemoryBuffer.length + (match b.db with | none => 0 | some rows => rows.length)

end SqliteEventBuffer

/-! ## Event sender (src/sender.ts)

EventSender.send classifies the HTTP outcome of posting one batch.  The
network interaction is modelled by an explicit outcome value: a 2xx
response carrying the server's parsed body, a non-2xx status (with the
Retry-After header value, read only for 429), or a transport error. -/

/-- One per-batch error entry ({index, reason}). -/
structure BatchError where
  index : Int
  reason : String
  deriving DecidableEq

/-- The EventBatchResponse shape returned by send. -/
structure EventBatchResponse where
  accepted : Nat
  rejected : Nat
  errors : Option (List BatchError)
  deriving DecidableEq

/-- The outcome of the POST /v1/events fetch. -/
inductive HttpOutcome where
  | ok (body : EventBatchResponse)
  | status (code : Nat) (retryAfter : Option String)
  | netError (msg : String)
  deriving DecidableEq

namespace EventSender

/-- send(events): empty input short-circuits to {0,0}; 2xx returns the
parsed body; 429 / 401 / other statuses / transport errors reject the
whole batch with the corresponding reason.  (The Retry-After header is
a string or null; JavaScript template interpolation prints null as
"null".) -/
def send {E : Type} (events : List E) (resp : HttpOutcome) : EventBatchResponse :=
  if events.length = 0 then ⟨0, 0, none⟩
  else
    match resp with
    | .ok body => body
    | .status code retryAfter =>
      if code = 429 then
        ⟨0, events.length,
         some [⟨-1, "Rate limited. Retry after " ++ retryAfter.getD "null" ++ "s"⟩]⟩
      else if code = 401 then
        ⟨0, events.length, some [⟨-1, "Invalid API key"⟩]⟩
      else
        ⟨0, events.length, some [⟨-1, "API error: " ++ toString code⟩]⟩
    | .netError msg =>
      ⟨0, events.length, some [⟨-1, "Network error: " ++ msg⟩]⟩

end EventSender

/-! ## Orchestrator flush and queueEvent (src/index.ts, MoltwirePlugin)

The plugin wires the single-tier buffer to the sender: flush selects a
batch, sends it, and invokes confirm only when accepted > 0 (for the
single-tier buffer confirm is a no-op; the selection itself already
removed the events).  queueEvent guards on the enabled flag and on a
present event before touching the buffer. -/

/-- The plugin state relevant to queueEvent/flush: the enabled flag,
the single-tier buffer, and LocalState.lastFlushTime. -/
structure PluginState (E : Type) where
  isEnabled : Bool
  buffer : EventBuffer E
  lastFlushTime : Nat

namespace MoltwirePlugin

/-- flush(): return early when the buffer is empty or selection is
empty; otherwise send, and on accepted > 0 record the flush time
(confirm is the single-tier no-op). -/
def flushStep {E : Type} (st : PluginState E) (resp : HttpOutcome) (now : Nat) : PluginState E :=
  if !st.buffer.hasEvents then st
  else
    let sel := st.buffer.flush
    if sel.fst.isEmpty then st
    else
      let result := EventSender.send sel.fst resp
      if result.accepted > 0 then
        { st with buffer := sel.snd, lastFlushTime := now }
      else
        { st with buffer := sel.snd }

/-- queueEvent(event): do nothing unless enabled and the event is
present; otherwise push, and flush immediately when the buffer has
reached flushBatchSize. -/
def queueEvent {E : Type} (st : PluginState E) (event : Option E) (resp : HttpOutcome)
    (now : Nat) : PluginState E :=
  if !st.isEnabled || event.isNone then st
  else
    match event with
    | none => st
    | some e =>
      let st1 := { st with buffer := st.buffer.push e }
      if st1.buffer.size ≥ st1.buffer.flushBatchSize then flushStep st1 resp now else st1


end MoltwirePlugin

/-! ## Classifier (src/classifier.ts) -/

/-- JavaScript toLowerCase() (ASCII case folding, character by
character; equivalent to String.toLower but expressed over the
character list so that it evaluates by kernel reduction). -/
def jsToLower (s : String) : String := String.mk (s.toList.map Char.toLower)

/-- JavaScript includes(): substring containment. -/
def strContains (s sub : String) : Bool :=
  (List.range (s.toList.length + 1)).any
    (fun i => (s.toList.drop i).take sub.toList.length == sub.toList)

/-- JavaScript startsWith(). -/
def strStarts (s p : String) : Bool :=
  s.toList.take p.toList.length == p.toList

/-- JavaScript Array.prototype.join(' '). -/
def jsJoin (sep : String) (parts : List String) : String :=
  String.mk (List.intercalate sep.toList (parts.map String.toList))

/-- The closed set of command-pattern categories (src/types.ts). -/
inductive CommandPattern where
  | curl_external
  | curl_internal
  | file_read_home
  | file_read_config
  | file_read_credential
  | file_write
  | file_delete
  | npm_install
  | git_operation
  | process_spawn
  | ssh_connection
  | docker_operation
  | browser_navigate
  | browser_form_fill
  | unknown
  deriving DecidableEq

/-- The hook context fields classifyCommand inspects (src/types.ts
ToolContext, restricted to toolName/command/args). -/
structure ToolContext where
  toolName : String
  command : Option String
  args : Option (List String)

/-- CREDENTIAL_PATHS, in source order. -/
def CREDENTIAL_PATHS : List String :=
  [".env", ".env.local", ".env.production", "auth-profiles.json", "credentials",
   ".ssh", ".aws", ".gcloud", ".azure", ".kube/config", ".docker/config.json",
   ".npmrc", ".pypirc", "id_rsa", "id_ed25519", ".gnupg", "secrets", "tokens",
   "api_keys", ".netrc"]

/-- CONFIG_PATHS, in source order. -/
def CONFIG_PATHS : List String :=
  [".config", ".local", "Library/Preferences", "Library/Application Support",
   "AppData", "/etc"]

/-- LOCALHOST_PATTERNS. -/
def LOCALHOST_PATTERNS : List String :=
  ["localhost", "127.0.0.1", "0.0.0.0", "::1"]

/-- The JavaScript expression command || args?.join(' ') || '' (an
empty command string is falsy and falls through to the joined args). -/
def fullCommandOf (ctx : ToolContext) : String :=
  let c := ctx.command.getD ""
  if c ≠ "" then c
  else jsJoin " " (ctx.args.getD [])

/-- classifyFileRead: credential paths take precedence, then config
paths; anything else is a home read. -/
def classifyFileRead (pathOrCommand : String) : CommandPattern :=
  let path := jsToLower pathOrCommand
  if CREDENTIAL_PATHS.any (fun credPath => strContains path (jsToLower credPath)) then
    .file_read_credential
  else if CONFIG_PATHS.any (fun configPath => strContains path (jsToLower configPath)) then
    .file_read_config
  else if strContains path "~" || strContains path "/home/" || strContains path "/users/" then
    .file_read_home
  else .file_read_home

/-- The inner decision table of the exec/shell/bash branch; none means
the branch fell through to the file-operation checks below it. -/
def classifyExec (lowerCommand : String) : Option CommandPattern :=
  if strStarts lowerCommand "ssh " || strStarts lowerCommand "scp " then
    some .ssh_connection
  else if strStarts lowerCommand "docker " then some .docker_operation
  else if strStarts lowerCommand "git " then some .git_operation
  else if (strStarts lowerCommand "npm " || strStarts lowerCommand "pnpm " ||
           strStarts lowerCommand "yarn " || strStarts lowerCommand "bun ") &&
          (strContains lowerCommand "install" || strContains lowerCommand "add") then
    some .npm_install
  else if strStarts lowerCommand "curl " || strStarts lowerCommand "wget " then
    some (if LOCALHOST_PATTERNS.any (fun p => strContains lowerCommand p) then
            .curl_internal
          else .curl_external)
  else if strContains lowerCommand "spawn" || strContains lowerCommand "exec" ||
          strContains lowerCommand "&" then
    some .process_spawn
  else none

/-- classifyCommand: decision table keyed by tool name, then by
substring/prefix tests on the lower-cased command text.  A command in
the exec branch that hits none of the inner tests falls through to the
file-operation checks, exactly as in the source. -/
def classifyCommand (ctx : ToolContext) : CommandPattern :=
  let fullCommand := fullCommandOf ctx
  let lowerCommand := jsToLower fullCommand
  let lowerToolName := jsToLower ctx.toolName
  if lowerToolName == "browser" || strContains lowerToolName "browser" then
    if strContains lowerCommand "navigate" || strContains lowerCommand "goto" ||
       strContains lowerCommand "url" then
      .browser_navigate
    else if strContains lowerCommand "fill" || strContains lowerCommand "type" ||
            strContains lowerCommand "input" then
      .browser_form_fill
    else .browser_navigate
  else
    let execRes :=
      if lowerToolName == "exec" || lowerToolName == "shell" || lowerToolName == "bash" then
        classifyExec lowerCommand
      else none
    match execRes with
    | some p => p
    | none =>
      if lowerToolName == "read" || lowerToolName == "file_read" then
        classifyFileRead fullCommand
      else if lowerToolName == "write" || lowerToolName == "file_write" then
        .file_write
      else if lowerToolName == "delete" || lowerToolName == "rm" ||
              strContains lowerCommand "rm " then
        .file_delete
      else .unknown

/-! ### extractDomain (src/classifier.ts)

extractDomain first tries the URL-host regex /https?:\/\/([^\/\s:]+)/i
and then the SSH-style /@([^:\s\/]+)/; each is a leftmost search whose
capture is the trailing character-class run, implemented here directly. -/

/-- A character allowed in the URL-host capture [^\/\s:]. -/
def isUrlHostChar (c : Char) : Bool := !(c == '/' || c == ':' || isSpaceJs c)

/-- A character allowed in the @host capture [^:\s\/]. -/
def isAtHostChar (c : Char) : Bool := !(c == ':' || isSpaceJs c || c == '/')

/-- Match https?:\/\/ (case-insensitively) at index i; returns the
index after the scheme.  The optional s is greedy, but no backtracking
can help here because s never equals the : that must follow. -/
def schemeAt (s : List Char) (i : Nat) : Option Nat :=
  match litMatch true "http".toList s i with
  | none => none
  | some j =>
    match s[j]? with
    | some c =>
      if c.toLower == 's' then
        match litMatch false "://".toList s (j + 1) with
        | some j2 => some j2
        | none => match litMatch false "://".toList s j with
                  | some j2 => some j2
                  | none => none
      else
        match litMatch false "://".toList s j with
        | some j2 => some j2
        | none => none
    | none => none

/-- Leftmost match of the URL-host regex: the captured host run. -/
def urlHostFind (s : List Char) : Nat → Nat → Option (List Char)
  | 0, _ => none
  | fuel + 1, i =>
    match schemeAt s i with
    | some j =>
      let host := (s.drop j).takeWhile isUrlHostChar
      if host.isEmpty then
        if i < s.length then urlHostFind s fuel (i + 1) else none
      else some host
    | none =>
      if i < s.length then urlHostFind s fuel (i + 1) else none

/-- Leftmost match of the @host regex: the captured host run. -/
def atHostFind (s : List Char) : Nat → Nat → Option (List Char)
  | 0, _ => none
  | fuel + 1, i =>
    match s[i]? with
    | some c =>
      if c == '@' then
        let host := (s.drop (i + 1)).takeWhile isAtHostChar
        if host.isEmpty then atHostFind s fuel (i + 1) else some host
      else atHostFind s fuel (i + 1)
    | none => none

/-- extractDomain: URL host first, then an SSH-style user@host target;
absence rather than failure. -/
def extractDomain (command : String) : Option String :=
  let cs := command.toList
  match urlHostFind cs (cs.length + 1) 0 with
  | some host => some (String.mk host)
  | none =>
    match atHostFind cs (cs.length + 1) 0 with
    | some host => some (String.mk host)
    | none => none

/-! ## Threat intelligence matching (src/threats.ts) -/

/-- The signature_type-specific matching input.  In the source, pattern
is an untyped JSON object; the matcher reads pattern.domain,
pattern.skill_name and pattern.sequence.  A field is modelled as none
when it is absent or not of the type the matcher tests for. -/
structure SigPattern where
  domain : Option String
  skill_name : Option String
  sequence : Option (List String)
  deriving DecidableEq

/-- A ThreatSignature record. -/
structure ThreatSignature where
  id : String
  signature_type : String
  pattern : SigPattern
  severity : String
  title : String
  description : Option String
  source_count : Nat
  first_seen_at : String
  last_seen_at : String
  deriving DecidableEq

/-- The context handed to matchSignatures. -/
structure MatchContext where
  domain : Option String
  skillName : Option String
  commandPattern : Option String
  toolName : Option String
  deriving DecidableEq

namespace ThreatIntelligence

/-- matchesPattern: signature_type selects the matcher.  Strict
equality on optional fields mirrors JavaScript ===(undefined equals
undefined); the coordinated_attack branch additionally requires a
truthy (non-empty) command pattern; rapid_execution_network and unknown
types never match. -/
def matchesPattern (signature : ThreatSignature) (context : MatchContext) : Bool :=
  if signature.signature_type = "malicious_domain" then
    context.domain == signature.pattern.domain
  else if signature.signature_type = "malicious_skill" then
    context.skillName == signature.pattern.skill_name
  else if signature.signature_type = "coordinated_attack" then
    match signature.pattern.sequence, context.commandPattern with
    | some seq, some cp => if cp ≠ "" then seq.contains cp else false
    | _, _ => false
  else if signature.signature_type = "rapid_execution_network" then false
  else false

/-- matchSignatures: linear scan, keeping the signatures whose matcher
accepts the context. -/
def matchSignatures (signatures : List ThreatSignature) (context : MatchContext) :
    List ThreatSignature :=
  signatures.filter (fun sig => matchesPattern sig context)

end ThreatIntelligence

/-! ## Anomaly-tracking helpers (src/index.ts)

trackRapidExecution and trackNewDomain mutate LocalState and fire at
most one AnomalyIndicator event per call; each is modelled as a state
transformer returning whether it fired. -/

/-- The LocalState fields trackRapidExecution uses. -/
structure RapidState where
  lastToolExecutionTime : Nat
  toolExecutionCount : Nat
  deriving DecidableEq

/-- trackRapidExecution at clock time now (milliseconds): reset the
counter to 1 when more than a minute has passed since the last
execution, otherwise increment; stamp the execution time; fire
rapid_tool_execution and zero the counter when the count exceeds 20. -/
def trackRapidExecution (s : RapidState) (now : Nat) : RapidState × Bool :=
  let count1 :=
    if s.lastToolExecutionTime < now - 60000 then 1 else s.toolExecutionCount + 1
  if count1 > 20 then (⟨now, 0⟩, true) else (⟨now, count1⟩, false)

/-- Run trackRapidExecution over a list of execution times, counting
the anomaly events fired. -/
def runRapid (s : RapidState) : List Nat → RapidState × Nat
  | [] => (s, 0)
  | t :: ts =>
    ((runRapid (trackRapidExecution s t).fst ts).fst,
     (if (trackRapidExecution s t).snd then 1 else 0)
       + (runRapid (trackRapidExecution s t).fst ts).snd)

/-- The execution times t, t+g1, t+g1+g2, …: a first time followed by
the inter-execution gaps. -/
def timesFrom (t : Nat) : List Nat → List Nat
  | [] => [t]
  | g :: gs => t :: timesFrom (t + g) gs

/-- The last of those times. -/
def timesEnd (t : Nat) (gs : List Nat) : Nat := gs.foldl (fun a g => a + g) t

/-- trackNewDomain on the seen-domain list: case-fold, test membership;
when new, append, trim to the most recent 1000, and fire
new_external_domain. -/
def trackNewDomain (seenDomains : List String) (domain : String) : List String × Bool :=
  let lowerDomain := jsToLower domain
  if seenDomains.contains lowerDomain then (seenDomains, false)
  else
    let s1 := seenDomains ++ [lowerDomain]
    let s2 := if s1.length > 1000 then s1.drop (s1.length - 1000) else s1
    (s2, true)

/-! ## Supporting lemmas -/

/-- If the leftmost search finds nothing from index i, the replacement
loop copies the remainder unchanged. -/
theorem replaceGo_of_none {r : RE} {rep s : List Char} (fuel i : Nat)
    (h : findFrom r s (s.length + 1) i = none) :
    replaceGo r rep s (fuel + 1) i = s.drop i := by
  simp only [replaceGo, h]

/-- A string with no match anywhere is returned unchanged by replaceAll. -/
theorem replaceAll_of_none {r : RE} {s rep : List Char}
    (h : findFrom r s (s.length + 1) 0 = none) :
    replaceAll r s rep = s := by
  unfold replaceAll
  rw [replaceGo_of_none s.length 0 h, List.drop_zero]

/-- Folding replaceAll over patterns none of which match leaves the
text unchanged. -/
theorem foldl_replaceAll_of_none {rep : List Char} :
    ∀ (ps : List RE) (l : List Char),
      (∀ r ∈ ps, findFrom r l (l.length + 1) 0 = none) →
      ps.foldl (fun acc r => replaceAll r acc rep) l = l := by
  intro ps
  induction ps with
  | nil => intro l _; rfl
  | cons p ps ih =>
    intro l h
    have hp : replaceAll p l rep = l := replaceAll_of_none (h p (by simp))
    simp only [List.foldl_cons, hp]
    exact ih l (fun r hr => h r (by simp [hr]))

/-! ## C5 — idempotence of scrubPII -/

/-- C5, counterexample: scrubPII is not idempotent.  On a plus sign
followed by thirty digits, the first pass replaces the international
phone-number match (a plus and twenty digits) and leaves a bare
ten-digit residue adjacent to the redaction marker; the residue matches
the \b\d{3}[-.]?\d{3}[-.]?\d{4}\b phone pattern only on the second
pass, because that pattern is applied earlier in the list than the one
that created the residue.  So scrub(scrub T) redacts strictly more than
scrub T. -/
theorem scrub_not_idempotent_cex :
    scrubPII (scrubPII "+123456789012345678901234567890")
      ≠ scrubPII "+123456789012345678901234567890"
    ∧ scrubPII "+123456789012345678901234567890" = "[REDACTED]1234567890"
    ∧ scrubPII (scrubPII "+123456789012345678901234567890") = "[REDACTED][REDACTED]" := by
  refine ⟨?_, ?_, ?_⟩ <;> decide

/-- A text with no residual match is left unchanged by scrubPII. -/
theorem scrubPII_eq_self_of_no_match (s : String) (h : NoResidualMatch s) :
    scrubPII s = s := by
  have hfold : PII_PATTERNS.foldl (fun acc r => replaceAll r acc REDACTED.toList) s.toList
      = s.toList := foldl_replaceAll_of_none PII_PATTERNS s.toList h
  calc scrubPII s
      = String.mk (PII_PATTERNS.foldl (fun acc r => replaceAll r acc REDACTED.toList) s.toList) := rfl
    _ = String.mk s.toList := by rw [hfold]
    _ = s := by cases s; rfl

/-- C5 (amended): re-scrubbing is a no-op exactly on those texts whose
scrubbed form admits no residual pattern match; in general a second
scrub can differ, because one pattern's replacement may leave residual
text completing a match for a pattern earlier in the list. -/
theorem scrub_idempotent_when_no_residual (t : String)
    (h : NoResidualMatch (scrubPII t)) :
    scrubPII (scrubPII t) = scrubPII t :=
  scrubPII_eq_self_of_no_match (scrubPII t) h

set_option maxHeartbeats 1600000 in
/-- Witness for the amended C5 theorem at a concrete text containing
scrubbable PII. -/
theorem scrub_idempotent_when_no_residual_witness :
    NoResidualMatch (scrubPII "a@b.co")
    ∧ scrubPII (scrubPII "a@b.co") = scrubPII "a@b.co" :=
  ⟨by decide, scrub_idempotent_when_no_residual "a@b.co" (by decide)⟩

/-! ## C8 — classifier scenarios -/

/-- C8: classifying an exec of curl against an external URL yields
curl_external with domain evil.example, and reading a private key under
a home directory yields file_read_credential. -/
theorem classify_scenarios :
    classifyCommand ⟨"exec", some "curl http://evil.example/x", none⟩
        = CommandPattern.curl_external
    ∧ extractDomain "curl http://evil.example/x" = some "evil.example"
    ∧ classifyCommand ⟨"read", some "/home/alice/.ssh/id_rsa", none⟩
        = CommandPattern.file_read_credential := by
  refine ⟨?_, ?_, ?_⟩ <;> decide

/-! ## C9 — signature matching -/

/-- Unfolded characterisation of matchesPattern. -/
theorem matchesPattern_eq_true_iff (sig : ThreatSignature) (ctx : MatchContext) :
    ThreatIntelligence.matchesPattern sig ctx = true ↔
      ((sig.signature_type = "malicious_domain" ∧ ctx.domain = sig.pattern.domain) ∨
       (sig.signature_type = "malicious_skill" ∧ ctx.skillName = sig.pattern.skill_name) ∨
       (sig.signature_type = "coordinated_attack" ∧
         ∃ seq cp, sig.pattern.sequence = some seq ∧ ctx.commandPattern = some cp ∧
           cp ≠ "" ∧ cp ∈ seq)) := by
  unfold ThreatIntelligence.matchesPattern
  split_ifs with h1 h2 h3 h4
  · simp only [beq_iff_eq]
    constructor
    · intro he; exact Or.inl ⟨h1, he⟩
    · rintro (⟨_, he⟩ | ⟨h2', _⟩ | ⟨h3', _⟩)
      · exact he
      · rw [h1] at h2'; exact absurd h2' (by decide)
      · rw [h1] at h3'; exact absurd h3' (by decide)
  · simp only [beq_iff_eq]
    constructor
    · intro he; exact Or.inr (Or.inl ⟨h2, he⟩)
    · rintro (⟨h1', _⟩ | ⟨_, he⟩ | ⟨h3', _⟩)
      · exact absurd h1' h1
      · exact he
      · rw [h2] at h3'; exact absurd h3' (by decide)
  · rcases hseq : sig.pattern.sequence with _ | seq <;>
      rcases hcp : ctx.commandPattern with _ | cp
    · constructor
      · intro hfalse; exact absurd hfalse (by simp)
      · rintro (⟨h1', _⟩ | ⟨h2', _⟩ | ⟨_, seq, cp, hs, _, _, _⟩)
        · exact absurd h1' h1
        · exact absurd h2' h2
        · exact absurd hs (by simp)
    · constructor
      · intro hfalse; exact absurd hfalse (by simp)
      · rintro (⟨h1', _⟩ | ⟨h2', _⟩ | ⟨_, seq, cp, hs, _, _, _⟩)
        · exact absurd h1' h1
        · exact absurd h2' h2
        · exact absurd hs (by simp)
    · constructor
      · intro hfalse; exact absurd hfalse (by simp)
      · rintro (⟨h1', _⟩ | ⟨h2', _⟩ | ⟨_, seq2, cp2, _, hc, _, _⟩)
        · exact absurd h1' h1
        · exact absurd h2' h2
        · exact absurd hc (by simp)
    · constructor
      · intro hif
        by_cases hne : cp = ""
        · rw [hne] at hif; simp at hif
        · refine Or.inr (Or.inr ⟨h3, seq, cp, rfl, rfl, hne, ?_⟩)
          exact List.mem_of_elem_eq_true (by simpa [hne] using hif)
      · rintro (⟨h1', _⟩ | ⟨h2', _⟩ | ⟨_, seq2, cp2, hs, hc, hne, hmem⟩)
        · exact absurd h1' h1
        · exact absurd h2' h2
        · obtain rfl : seq = seq2 := by injection hs
          obtain rfl : cp = cp2 := by injection hc
          simpa [hne] using List.elem_eq_true_of_mem hmem
  · constructor
    · intro hfalse; exact absurd hfalse (by simp)
    · rintro (⟨h1', _⟩ | ⟨h2', _⟩ | ⟨h3', _⟩)
      · exact absurd h1' h1
      · exact absurd h2' h2
      · exact absurd h3' h3
  · constructor
    · intro hfalse; exact absurd hfalse (by simp)
    · rintro (⟨h1', _⟩ | ⟨h2', _⟩ | ⟨h3', _⟩)
      · exact absurd h1' h1
      · exact absurd h2' h2
      · exact absurd h3' h3

/-- The concrete malicious-domain signature from the scenario. -/
def evilSignature : ThreatSignature :=
  ⟨"sig-001", "malicious_domain", ⟨some "evil.example", none, none⟩, "high",
   "Known malicious domain", none, 3, "2025-01-01T00:00:00Z", "2025-06-01T00:00:00Z"⟩

/-- A context carrying only the domain evil.example. -/
def evilContext : MatchContext := ⟨some "evil.example", none, none, none⟩

/-- C9: matchSignatures keeps exactly the signatures whose
signature_type-specific matcher accepts the context (exact equality on
the optional domain for malicious_domain, exact equality on the
optional skill name for malicious_skill, membership of a non-empty
supplied command pattern in the signature's sequence for
coordinated_attack); every other signature_type (including
rapid_execution_network) matches no context; and the concrete
malicious-domain scenario matches. -/
theorem match_signatures_characterisation :
    (∀ (sigs : List ThreatSignature) (ctx : MatchContext) (sig : ThreatSignature),
       sig ∈ ThreatIntelligence.matchSignatures sigs ctx ↔
         sig ∈ sigs ∧
           ((sig.signature_type = "malicious_domain" ∧ ctx.domain = sig.pattern.domain) ∨
            (sig.signature_type = "malicious_skill" ∧ ctx.skillName = sig.pattern.skill_name) ∨
            (sig.signature_type = "coordinated_attack" ∧
              ∃ seq cp, sig.pattern.sequence = some seq ∧ ctx.commandPattern = some cp ∧
                cp ≠ "" ∧ cp ∈ seq)))
    ∧ (∀ (sig : ThreatSignature) (ctx : MatchContext),
         sig.signature_type ∉
             (["malicious_domain", "malicious_skill", "coordinated_attack"] : List String) →
         ThreatIntelligence.matchesPattern sig ctx = false)
    ∧ ThreatIntelligence.matchSignatures [evilSignature] evilContext = [evilSignature] := by
  refine ⟨?_, ?_, ?_⟩
  · intro sigs ctx sig
    rw [ThreatIntelligence.matchSignatures, List.mem_filter, matchesPattern_eq_true_iff]
  · intro sig ctx h
    simp only [List.mem_cons, List.not_mem_nil, or_false, not_or] at h
    obtain ⟨h1, h2, h3⟩ := h
    unfold ThreatIntelligence.matchesPattern
    rw [if_neg h1, if_neg h2, if_neg h3]
    by_cases h4 : sig.signature_type = "rapid_execution_network" <;> simp [h4]
  · decide

/-- Witness for the unknown-type conjunct of the characterisation at a
concrete signature of type rapid_execution_network. -/
theorem match_signatures_characterisation_witness :
    ("rapid_execution_network" : String) ∉
        (["malicious_domain", "malicious_skill", "coordinated_attack"] : List String)
    ∧ ThreatIntelligence.matchesPattern
        ⟨"sig-002", "rapid_execution_network", ⟨none, none, none⟩, "low", "Network burst",
         none, 1, "2025-01-01T00:00:00Z", "2025-01-02T00:00:00Z"⟩ evilContext = false :=
  ⟨by decide,
   match_signatures_characterisation.2.1
     ⟨"sig-002", "rapid_execution_network", ⟨none, none, none⟩, "low", "Network burst",
      none, 1, "2025-01-01T00:00:00Z", "2025-01-02T00:00:00Z"⟩ evilContext (by decide)⟩

/-! ## C7 — new-domain dedup -/

/-- A domain whose case-folded form is already in the list leaves the
list unchanged and fires nothing. -/
theorem trackNewDomain_of_contains (l : List String) (d : String)
    (h : l.contains (jsToLower d) = true) : trackNewDomain l d = (l, false) := by
  unfold trackNewDomain
  simp [h, List.mem_of_elem_eq_true h]

/-- A domain whose case-folded form is new is appended (trimmed to the
most recent 1000) and fires. -/
theorem trackNewDomain_of_not_contains (l : List String) (d : String)
    (h : ¬ l.contains (jsToLower d) = true) :
    trackNewDomain l d =
      (if (l ++ [jsToLower d]).length > 1000 then
         (l ++ [jsToLower d]).drop ((l ++ [jsToLower d]).length - 1000)
       else l ++ [jsToLower d], true) := by
  have hm : jsToLower d ∉ l := fun hmem => h (List.elem_eq_true_of_mem hmem)
  unfold trackNewDomain
  simp [h, hm]

/-- After trackNewDomain runs on d, the case-folded d is in the
seen-domain list: either it was already there, or it was appended and
the trim to the most recent 1000 keeps the appended (newest) entry. -/
theorem toLower_mem_trackNewDomain (seen : List String) (d : String) :
    jsToLower d ∈ (trackNewDomain seen d).fst := by
  by_cases hc : seen.contains (jsToLower d) = true
  · rw [trackNewDomain_of_contains seen d hc]
    exact List.mem_of_elem_eq_true hc
  · rw [trackNewDomain_of_not_contains seen d hc]
    simp only []
    split_ifs with hlen
    · rw [List.drop_append_eq_append_drop]
      refine List.mem_append_right _ ?_
      have hk : (seen ++ [jsToLower d]).length - 1000 - seen.length = 0 := by
        simp only [List.length_append, List.length_cons, List.length_nil]
        omega
      rw [hk, List.drop_zero]
      exact List.mem_singleton_self _
    · exact List.mem_append_right _ (List.mem_singleton_self _)

/-- C7: two successive new-domain checks with the same case-folded
domain fire at most once: the first call fires exactly when the
case-folded domain was not already seen (and leaves the list unchanged
when it was), and the second call fires nothing and leaves the
seen-domain list unchanged. -/
theorem new_domain_dedup (seen : List String) (d1 d2 : String)
    (hfold : jsToLower d1 = jsToLower d2) :
    ((trackNewDomain (trackNewDomain seen d1).fst d2).snd = false
      ∧ (trackNewDomain (trackNewDomain seen d1).fst d2).fst = (trackNewDomain seen d1).fst)
    ∧ ((trackNewDomain seen d1).snd = true ↔ jsToLower d1 ∉ seen)
    ∧ ((trackNewDomain seen d1).snd = false → (trackNewDomain seen d1).fst = seen) := by
  have hmem : jsToLower d2 ∈ (trackNewDomain seen d1).fst := by
    rw [← hfold]; exact toLower_mem_trackNewDomain seen d1
  have hcontains : ((trackNewDomain seen d1).fst).contains (jsToLower d2) = true :=
    List.elem_eq_true_of_mem hmem
  have hsecond := trackNewDomain_of_contains (trackNewDomain seen d1).fst d2 hcontains
  refine ⟨⟨by rw [hsecond], by rw [hsecond]⟩, ?_, ?_⟩
  · by_cases hc : seen.contains (jsToLower d1) = true
    · rw [trackNewDomain_of_contains seen d1 hc]
      simp only [Bool.false_eq_true, false_iff, not_not]
      exact List.mem_of_elem_eq_true hc
    · rw [trackNewDomain_of_not_contains seen d1 hc]
      simp only [true_iff]
      intro hmem1
      exact hc (List.elem_eq_true_of_mem hmem1)
  · by_cases hc : seen.contains (jsToLower d1) = true
    · rw [trackNewDomain_of_contains seen d1 hc]
      intro _; rfl
    · rw [trackNewDomain_of_not_contains seen d1 hc]
      intro hfalse
      exact absurd hfalse (by simp)

/-- Witness for the dedup theorem: the same domain in two letter cases,
starting from an empty seen-domain list. -/
theorem new_domain_dedup_witness :
    jsToLower "Evil.Example" = jsToLower "EVIL.EXAMPLE"
    ∧ (trackNewDomain (trackNewDomain [] "Evil.Example").fst "EVIL.EXAMPLE").snd = false :=
  ⟨by decide, (new_domain_dedup [] "Evil.Example" "EVIL.EXAMPLE" (by decide)).1.1⟩

/-! ## C10 — queueEvent frame condition -/

/-- C10: queueEvent leaves the plugin state (in particular the event
buffer) completely unchanged when the plugin is not enabled or the
collector produced no event; such events are discarded, not buffered. -/
theorem queueEvent_disabled_frame {E : Type} (st : PluginState E) (event : Option E)
    (resp : HttpOutcome) (now : Nat) (h : st.isEnabled = false ∨ event = none) :
    MoltwirePlugin.queueEvent st event resp now = st := by
  unfold MoltwirePlugin.queueEvent
  rcases h with h | h
  · simp [h]
  · simp [h]

/-- Witness for the queueEvent frame condition: a disabled plugin and a
present event. -/
theorem queueEvent_disabled_frame_witness :
    MoltwirePlugin.queueEvent (⟨false, ⟨[], 100, 50⟩, 0⟩ : PluginState Nat)
        (some 7) (.netError "offline") 5 = ⟨false, ⟨[], 100, 50⟩, 0⟩ :=
  queueEvent_disabled_frame _ _ _ _ (Or.inl rfl)

/-! ## C6 — rapid-execution threshold -/

/-- A step within the 60-second window that keeps the count at or below
20: increment, stamp, no event. -/
theorem trackRapid_incr (s : RapidState) (now : Nat)
    (hw : now ≤ s.lastToolExecutionTime + 60000)
    (hc : s.toolExecutionCount + 1 ≤ 20) :
    trackRapidExecution s now = (⟨now, s.toolExecutionCount + 1⟩, false) := by
  unfold trackRapidExecution
  have hcond : ¬ (s.lastToolExecutionTime < now - 60000) := by omega
  have hle : ¬ (s.toolExecutionCount + 1 > 20) := by omega
  simp [hcond, hle]

/-- The first step from a reset counter yields count 1 and no event,
whatever the previous timestamp. -/
theorem trackRapid_first (last0 t : Nat) :
    trackRapidExecution ⟨last0, 0⟩ t = (⟨t, 1⟩, false) := by
  unfold trackRapidExecution
  by_cases h : last0 < t - 60000 <;> simp [h]

/-- A step within the window from count 20 fires and resets to 0. -/
theorem trackRapid_fire (s : RapidState) (now : Nat)
    (hw : now ≤ s.lastToolExecutionTime + 60000)
    (hc : s.toolExecutionCount = 20) :
    trackRapidExecution s now = (⟨now, 0⟩, true) := by
  unfold trackRapidExecution
  have hcond : ¬ (s.lastToolExecutionTime < now - 60000) := by omega
  simp [hcond, hc]

/-- Unfolding equation for runRapid on a cons. -/
theorem runRapid_cons (s : RapidState) (t : Nat) (ts : List Nat) :
    runRapid s (t :: ts)
      = ((runRapid (trackRapidExecution s t).fst ts).fst,
         (if (trackRapidExecution s t).snd then 1 else 0)
           + (runRapid (trackRapidExecution s t).fst ts).snd) := rfl

/-- A run that starts within the window and stays at or below the
threshold fires nothing and counts every execution. -/
theorem run_nofire : ∀ (gs : List Nat) (last c t : Nat),
    (∀ g ∈ gs, g ≤ 60000) → t ≤ last + 60000 → c + 1 + gs.length ≤ 20 →
    runRapid ⟨last, c⟩ (timesFrom t gs)
      = (⟨timesEnd t gs, c + 1 + gs.length⟩, 0) := by
  intro gs
  induction gs with
  | nil =>
    intro last c t _ ht hc
    have hstep := trackRapid_incr ⟨last, c⟩ t ht (by simpa using hc)
    rw [show timesFrom t [] = [t] from rfl, runRapid_cons, hstep]
    simp [runRapid, timesEnd]
  | cons g gs ih =>
    intro last c t hg ht hc
    have hc' : c + 1 ≤ 20 := by simp at hc; omega
    have hstep := trackRapid_incr ⟨last, c⟩ t ht hc'
    have hrest := ih t (c + 1) (t + g)
      (fun x hx => hg x (by simp [hx]))
      (by have := hg g (by simp); omega)
      (by simp at hc ⊢; omega)
    rw [show timesFrom t (g :: gs) = t :: timesFrom (t + g) gs from rfl,
        runRapid_cons, hstep]
    simp only [hrest, Prod.mk.injEq, RapidState.mk.injEq]
    refine ⟨⟨rfl, ?_⟩, by simp⟩
    simp only [List.length_cons]
    omega

/-- Fire counts add over concatenated runs. -/
theorem runRapid_append (xs ys : List Nat) (s : RapidState) :
    runRapid s (xs ++ ys)
      = ((runRapid (runRapid s xs).fst ys).fst,
         (runRapid s xs).snd + (runRapid (runRapid s xs).fst ys).snd) := by
  induction xs generalizing s with
  | nil => simp [runRapid]
  | cons x xs ih => simp [runRapid, ih, Nat.add_assoc]

/-- Appending one more gap appends one more execution time. -/
theorem timesFrom_append (t : Nat) (gs : List Nat) (g : Nat) :
    timesFrom t (gs ++ [g]) = timesFrom t gs ++ [timesEnd t gs + g] := by
  induction gs generalizing t with
  | nil => simp [timesFrom, timesEnd]
  | cons a as ih => simp [timesFrom, timesEnd, ih, List.foldl_cons]

/-- C6: from a reset counter, a run of 21 executions each within 60
seconds of the previous one counts 20 without firing over the first 20
executions, fires exactly one rapid_tool_execution event over the full
21 and ends with the counter reset to 0; a further execution within the
window of a reset-counter state starts a fresh count of 1 without
firing; and whenever the gap since the last execution exceeds 60
seconds the counter resets to 1 instead of incrementing, again without
firing. -/
theorem rapid_execution_threshold :
    (∀ (last0 t1 : Nat) (gaps : List Nat), gaps.length = 20 →
       (∀ g ∈ gaps, g ≤ 60000) →
       runRapid ⟨last0, 0⟩ (timesFrom t1 gaps.dropLast)
           = (⟨timesEnd t1 gaps.dropLast, 20⟩, 0)
       ∧ runRapid ⟨last0, 0⟩ (timesFrom t1 gaps) = (⟨timesEnd t1 gaps, 0⟩, 1))
    ∧ (∀ (s : RapidState) (now : Nat), s.toolExecutionCount = 0 →
         now ≤ s.lastToolExecutionTime + 60000 →
         trackRapidExecution s now = (⟨now, 1⟩, false))
    ∧ (∀ (s : RapidState) (now : Nat), s.lastToolExecutionTime + 60000 < now →
         trackRapidExecution s now = (⟨now, 1⟩, false)) := by
  refine ⟨?_, ?_, ?_⟩
  · intro last0 t1 gaps hlen hb
    obtain ⟨ghead, gtail, rfl⟩ : ∃ a l, gaps = a :: l := by
      cases gaps with
      | nil => simp at hlen
      | cons a l => exact ⟨a, l, rfl⟩
    have hlen' : gtail.length = 19 := by simpa using hlen
    have hne : gtail ≠ [] := by
      intro h; rw [h] at hlen'; simp at hlen'
    obtain ⟨mid, glast, rfl⟩ : ∃ m x, gtail = m ++ [x] :=
      ⟨gtail.dropLast, gtail.getLast hne, (List.dropLast_append_getLast hne).symm⟩
    have hmid : mid.length = 18 := by
      rw [List.length_append] at hlen'; simpa using hlen'
    have hdrop : (ghead :: (mid ++ [glast])).dropLast = ghead :: mid := by
      have : ghead :: (mid ++ [glast]) = (ghead :: mid) ++ [glast] := by simp
      rw [this, List.dropLast_concat]
    have hbhead : ghead ≤ 60000 := hb ghead (by simp)
    have hbmid : ∀ g ∈ mid, g ≤ 60000 := fun g hg => hb g (by simp [hg])
    have hblast : glast ≤ 60000 := hb glast (by simp)
    have hfirst20 :
        runRapid ⟨last0, 0⟩ (timesFrom t1 (ghead :: mid))
          = (⟨timesEnd (t1 + ghead) mid, 20⟩, 0) := by
      have hrest := run_nofire mid t1 1 (t1 + ghead) hbmid (by omega) (by omega)
      simp only [timesFrom, runRapid, trackRapid_first, hrest]
      refine Prod.ext ?_ ?_ <;> simp [hmid]
    constructor
    · rw [hdrop, hfirst20]
      refine Prod.ext ?_ ?_ <;> simp [timesEnd, List.foldl_cons]
    · rw [timesFrom, timesFrom_append]
      have hsplit := runRapid_append (t1 :: timesFrom (t1 + ghead) mid)
        [timesEnd (t1 + ghead) mid + glast] ⟨last0, 0⟩
      have hfirst20' :
          runRapid ⟨last0, 0⟩ (t1 :: timesFrom (t1 + ghead) mid)
            = (⟨timesEnd (t1 + ghead) mid, 20⟩, 0) := by
        rw [← hfirst20]; simp [timesFrom]
      have hlaststep :
          trackRapidExecution ⟨timesEnd (t1 + ghead) mid, 20⟩
              (timesEnd (t1 + ghead) mid + glast)
            = (⟨timesEnd (t1 + ghead) mid + glast, 0⟩, true) :=
        trackRapid_fire _ _ (by simp; omega) rfl
      have hcons : t1 :: (timesFrom (t1 + ghead) mid ++ [timesEnd (t1 + ghead) mid + glast])
          = (t1 :: timesFrom (t1 + ghead) mid) ++ [timesEnd (t1 + ghead) mid + glast] := by
        simp
      rw [hcons, hsplit, hfirst20']
      simp only [runRapid, hlaststep]
      refine Prod.ext ?_ ?_
      · simp [timesEnd, List.foldl_cons, List.foldl_append]
      · simp
  · intro s now h0 hw
    have hstep := trackRapid_incr s now hw (by omega)
    rw [hstep, h0]
  · intro s now hgap
    unfold trackRapidExecution
    have hcond : s.lastToolExecutionTime < now - 60000 := by omega
    simp [hcond]

/-- Witness for the rapid-execution theorem: 21 executions 3 ms apart
starting at t=5, then the follow-up and gap-reset steps at concrete
states. -/
theorem rapid_execution_threshold_witness :
    ((List.replicate 20 3).length = 20
      ∧ runRapid ⟨0, 0⟩ (timesFrom 5 (List.replicate 20 3))
          = (⟨timesEnd 5 (List.replicate 20 3), 0⟩, 1))
    ∧ trackRapidExecution ⟨65, 0⟩ 70 = (⟨70, 1⟩, false)
    ∧ trackRapidExecution ⟨0, 5⟩ 70000 = (⟨70000, 1⟩, false) :=
  ⟨⟨by decide,
    (rapid_execution_threshold.1 0 5 (List.replicate 20 3) (by decide) (by decide)).2⟩,
   rapid_execution_threshold.2.1 ⟨65, 0⟩ 70 rfl (by decide),
   rapid_execution_threshold.2.2 ⟨0, 5⟩ 70000 (by decide)⟩


/-! ## C3 — buffer FIFO and capacity -/

/-- The eviction loop drops exactly the oldest entries beyond the cap. -/
theorem evict_eq {E : Type} : ∀ (l : List E) (n : Nat),
    EventBuffer.evict l n = l.drop (l.length - n) := by
  intro l n
  induction l with
  | nil => simp [EventBuffer.evict]
  | cons x t ih =>
    rw [EventBuffer.evict]
    split_ifs with h
    · have h0 : (x :: t).length - n = 0 := by omega
      rw [h0, List.drop_zero]
    · rw [ih]
      have h1 : (x :: t).length - n = (t.length - n) + 1 := by
        simp only [List.length_cons] at h ⊢; omega
      rw [h1, List.drop_succ_cons]

/-- Evicting to the cap once more after appending one element agrees
with evicting the whole appended list. -/
theorem drop_cap_append_one {E : Type} (L : List E) (e : E) (n : Nat) :
    (L.drop (L.length - n) ++ [e]).drop ((L.drop (L.length - n) ++ [e]).length - n)
      = (L ++ [e]).drop ((L ++ [e]).length - n) := by
  rcases Nat.lt_or_ge L.length n with h | h
  · have h1 : L.length - n = 0 := by omega
    rw [h1, List.drop_zero]
  · have hX : (L.drop (L.length - n)).length = n := by
      rw [List.length_drop]; omega
    rw [List.drop_append_eq_append_drop, List.drop_append_eq_append_drop]
    have hlen1 : (L.drop (L.length - n) ++ [e]).length - n = 1 := by
      rw [List.length_append, hX]; simp
    have hlen2 : (L ++ [e]).length - n = L.length - n + 1 := by
      rw [List.length_append]; simp only [List.length_cons, List.length_nil]; omega
    rw [hlen1, hlen2, List.drop_drop, hX]
    have ha : 1 - n = L.length - n + 1 - L.length := by omega
    rw [ha]

/-- pushAll only touches the buffer contents, not the configuration. -/
theorem pushAll_maxSize {E : Type} : ∀ (es : List E) (b : EventBuffer E),
    (EventBuffer.pushAll b es).maxSize = b.maxSize := by
  intro es
  induction es with
  | nil => intro b; rfl
  | cons e es ih => intro b; exact ih (b.push e)

/-- pushAll appends one event at a time. -/
theorem pushAll_concat {E : Type} (b : EventBuffer E) (es : List E) (e : E) :
    EventBuffer.pushAll b (es ++ [e]) = (EventBuffer.pushAll b es).push e := by
  unfold EventBuffer.pushAll
  rw [List.foldl_append]
  rfl

/-- Pushing a list of events into a within-cap buffer retains exactly
the newest maxSize entries of the concatenation, in order. -/
theorem pushAll_buffer {E : Type} (es : List E) (b : EventBuffer E)
    (hb : b.buffer.length ≤ b.maxSize) :
    (EventBuffer.pushAll b es).buffer
      = (b.buffer ++ es).drop ((b.buffer ++ es).length - b.maxSize) := by
  induction es using List.reverseRecOn with
  | nil =>
    have h0 : b.buffer.length - b.maxSize = 0 := by omega
    simp [EventBuffer.pushAll, h0]
  | append_singleton es e ih =>
    rw [pushAll_concat, EventBuffer.push, evict_eq, ih, pushAll_maxSize]
    rw [drop_cap_append_one, List.append_assoc]

/-- C3, counterexample: in the two-tier buffer with memory capacity 2,
pushing 3 > 2 events with no intervening flush retains all 3 events (1
in memory, 2 spilled to the overflow store), not exactly 2: exceeding
the capacity spills instead of evicting, so the claim fails for the
two-tier buffer. -/
theorem push_beyond_cap_two_tier_cex :
    (SqliteEventBuffer.pushAll (SqliteEventBuffer.create Nat 2 50) [0, 1, 2]).size = 3
    ∧ (SqliteEventBuffer.pushAll (SqliteEventBuffer.create Nat 2 50) [0, 1, 2]).inMemoryBuffer
        = [2]
    ∧ (SqliteEventBuffer.pushAll (SqliteEventBuffer.create Nat 2 50) [0, 1, 2]).db
        = some [(0, 0), (1, 1)] := by
  refine ⟨?_, ?_, ?_⟩ <;> decide

/-- C3 (amended): for the single-tier memory buffer, pushing N > cap
events with no intervening flush leaves exactly cap events retained,
and the retained events are the most recent cap pushed, in their
original push order. -/
theorem push_beyond_cap_retains_newest {E : Type} (maxMemorySize flushBatchSize : Nat)
    (es : List E) (hcap : maxMemorySize ≤ MAX_BUFFER_SIZE)
    (hn : es.length > maxMemorySize) :
    (EventBuffer.pushAll (EventBuffer.create E maxMemorySize flushBatchSize) es).buffer
        = es.drop (es.length - maxMemorySize)
    ∧ (EventBuffer.pushAll (EventBuffer.create E maxMemorySize flushBatchSize) es).buffer.length
        = maxMemorySize := by
  have hmin : min maxMemorySize MAX_BUFFER_SIZE = maxMemorySize := Nat.min_eq_left hcap
  have hb : ((EventBuffer.create E maxMemorySize flushBatchSize).buffer).length
      ≤ (EventBuffer.create E maxMemorySize flushBatchSize).maxSize := by
    simp [EventBuffer.create]
  have h := pushAll_buffer es (EventBuffer.create E maxMemorySize flushBatchSize) hb
  have hbuf : (EventBuffer.create E maxMemorySize flushBatchSize).buffer = ([] : List E) := rfl
  have hms : (EventBuffer.create E maxMemorySize flushBatchSize).maxSize = maxMemorySize := by
    simp [EventBuffer.create, hmin]
  simp only [hbuf, hms, List.nil_append] at h
  refine ⟨h, ?_⟩
  rw [h, List.length_drop]
  omega

/-- Witness for the amended C3 theorem: capacity 2, four events. -/
theorem push_beyond_cap_retains_newest_witness :
    (EventBuffer.pushAll (EventBuffer.create Nat 2 50) [0, 1, 2, 3]).buffer
        = [0, 1, 2, 3].drop ([0, 1, 2, 3].length - 2)
    ∧ (EventBuffer.pushAll (EventBuffer.create Nat 2 50) [0, 1, 2, 3]).buffer.length = 2 :=
  push_beyond_cap_retains_newest 2 50 [0, 1, 2, 3] (by decide) (by decide)

/-! ## C4 — spill moves the oldest half, restores on failure -/

/-- withIds preserves the number of rows. -/
theorem withIds_length {E : Type} : ∀ (start : Nat) (l : List E),
    (SqliteEventBuffer.withIds start l).length = l.length := by
  intro start l
  induction l generalizing start with
  | nil => rfl
  | cons e es ih => simp [SqliteEventBuffer.withIds, ih]

/-- C4: when a push makes the memory tier exceed its capacity m (memory
holding m + 1 events), the oldest m/2 + 1 events — the oldest half,
rounded up — are moved to the overflow store in one batch with fresh
consecutive ids, the memory tier retains the newest half in order, and
nothing else changes (the push stays under the global hard cap); if the
insert transaction fails, the moved events are restored to the front of
the memory tier, leaving memory exactly as after the append and the
overflow store untouched — no event is lost either way. -/
theorem spill_moves_oldest_half {E : Type} (mem : List E) (rows : List (Nat × E))
    (m bs nid : Nat) (e : E) (hm : mem.length = m)
    (hcap : rows.length + (m + 1) ≤ MAX_BUFFER_SIZE) :
    (SqliteEventBuffer.push ⟨mem, some rows, nid, m, bs⟩ e true
        = ⟨(mem ++ [e]).drop (m / 2 + 1),
           some (rows ++ SqliteEventBuffer.withIds nid ((mem ++ [e]).take (m / 2 + 1))),
           nid + (m / 2 + 1), m, bs⟩)
    ∧ (SqliteEventBuffer.push ⟨mem, some rows, nid, m, bs⟩ e false
        = ⟨mem ++ [e], some rows, nid, m, bs⟩)
    ∧ (mem ++ [e]).take (m / 2 + 1) ++ (mem ++ [e]).drop (m / 2 + 1) = mem ++ [e] := by
  have hlen : (mem ++ [e]).length = m + 1 := by
    simp [hm]
  have hgt : (mem ++ [e]).length > m := by omega
  have hk : SqliteEventBuffer.spillCount (mem ++ [e]).length m = m / 2 + 1 := by
    rw [hlen]; unfold SqliteEventBuffer.spillCount; omega
  have hkle : m / 2 + 1 ≤ m + 1 := by omega
  have htake : ((mem ++ [e]).take (m / 2 + 1)).length = m / 2 + 1 := by
    rw [List.length_take]; omega
  refine ⟨?_, ?_, List.take_append_drop _ _⟩
  · unfold SqliteEventBuffer.push
    simp only [hgt, if_true]
    unfold SqliteEventBuffer.spillToSqlite
    simp only [hk, if_true, htake]
    unfold SqliteEventBuffer.enforceBufferLimit
    simp only []
    have htotal : (rows ++ SqliteEventBuffer.withIds nid ((mem ++ [e]).take (m / 2 + 1))).length
        + ((mem ++ [e]).drop (m / 2 + 1)).length ≤ MAX_BUFFER_SIZE := by
      rw [List.length_append, withIds_length, htake, List.length_drop, hlen]
      omega
    rw [if_neg (by omega)]
  · unfold SqliteEventBuffer.push
    simp only [hgt, if_true]
    unfold SqliteEventBuffer.spillToSqlite
    simp only [Bool.false_eq_true, if_false]

/-- Witness for the spill theorem: memory capacity 4 at its limit, one
more push. -/
theorem spill_moves_oldest_half_witness :
    SqliteEventBuffer.push (⟨[1, 2, 3, 4], some [], 0, 4, 50⟩ : SqliteEventBuffer Nat) 5 true
        = ⟨[4, 5], some [(0, 1), (1, 2), (2, 3)], 3, 4, 50⟩
    ∧ SqliteEventBuffer.push (⟨[1, 2, 3, 4], some [], 0, 4, 50⟩ : SqliteEventBuffer Nat) 5 false
        = ⟨[1, 2, 3, 4, 5], some [], 0, 4, 50⟩ := by
  have h := spill_moves_oldest_half [1, 2, 3, 4] [] 4 50 0 (5 : Nat) (by decide) (by decide)
  exact ⟨h.1.trans (by decide), h.2.1.trans (by decide)⟩

/-! ## C1 — confirm semantics -/

/-- Overflow-path flush: selection leaves the buffer untouched (events
stay in the overflow store until confirmed), and the confirm callback
deletes exactly the selected row ids from whatever state it is applied
to. -/
theorem flush_overflow_spec {E : Type} (b : SqliteEventBuffer E) (rows : List (Nat × E))
    (hdb : b.db = some rows) (hne : rows.take b.flushBatchSize ≠ []) :
    (SqliteEventBuffer.flush b).events = (rows.take b.flushBatchSize).map Prod.snd
    ∧ (SqliteEventBuffer.flush b).after = b
    ∧ ∀ t, (SqliteEventBuffer.flush b).confirm t
        = { t with db := t.db.map (fun rs => rs.filter
              (fun row => !(((rows.take b.flushBatchSize).map Prod.fst).contains row.fst))) } := by
  have hemp : (rows.take b.flushBatchSize).isEmpty = false := by
    rw [List.isEmpty_eq_false]; exact hne
  unfold SqliteEventBuffer.flush
  rw [hdb]
  simp only [hemp, Bool.false_eq_true, if_false]
  refine ⟨?_, ?_, fun t => ?_⟩ <;> trivial

/-- Memory-path flush: with an empty (or absent) overflow selection,
the memory tier is spliced at selection time and confirm is a no-op. -/
theorem flush_memory_spec {E : Type} (b : SqliteEventBuffer E) (rows : List (Nat × E))
    (hdb : b.db = some rows) (hsel : rows.take b.flushBatchSize = []) :
    (SqliteEventBuffer.flush b).events = b.inMemoryBuffer.take b.flushBatchSize
    ∧ (SqliteEventBuffer.flush b).after
        = { b with inMemoryBuffer := b.inMemoryBuffer.drop b.flushBatchSize }
    ∧ ∀ t, (SqliteEventBuffer.flush b).confirm t = t := by
  have hemp : (rows.take b.flushBatchSize).isEmpty = true := by
    rw [List.isEmpty_iff]; exact hsel
  unfold SqliteEventBuffer.flush
  rw [hdb]
  simp only [hemp, if_true]
  refine ⟨?_, ?_, fun t => ?_⟩ <;> trivial

/-- Filtering a concatenation by "id not among the ids of the first
part" keeps exactly the second part, when the id sets are disjoint. -/
theorem filter_not_contains_append {E : Type} (A B : List (Nat × E))
    (hdisj : ∀ i ∈ A.map Prod.fst, i ∉ B.map Prod.fst) :
    (A ++ B).filter (fun row => !((A.map Prod.fst).contains row.fst)) = B := by
  rw [List.filter_append]
  have h1 : A.filter (fun row => !((A.map Prod.fst).contains row.fst)) = [] := by
    rw [List.filter_eq_nil_iff]
    intro row hrow
    have hm : row.fst ∈ A.map Prod.fst := List.mem_map_of_mem _ hrow
    have hc : (A.map Prod.fst).contains row.fst = true := List.elem_eq_true_of_mem hm
    rw [hc]
    decide
  have h2 : B.filter (fun row => !((A.map Prod.fst).contains row.fst)) = B := by
    rw [List.filter_eq_self]
    intro row hrow
    have hmemr : row.fst ∈ B.map Prod.fst := List.mem_map_of_mem _ hrow
    have hfalse : (A.map Prod.fst).contains row.fst = false := by
      rw [← Bool.not_eq_true]
      intro hc
      exact hdisj row.fst (List.mem_of_elem_eq_true hc) hmemr
    rw [hfalse]
    decide
  rw [h1, h2, List.nil_append]

/-- With pairwise-distinct row ids, deleting the ids of the oldest
selected rows from the whole table is exactly dropping those rows. -/
theorem filter_selected_eq_drop {E : Type} (rows : List (Nat × E)) (bs : Nat)
    (hnd : (rows.map Prod.fst).Nodup) :
    rows.filter (fun row => !(((rows.take bs).map Prod.fst).contains row.fst))
      = rows.drop bs := by
  have hmap : rows.map Prod.fst = (rows.take bs).map Prod.fst ++ (rows.drop bs).map Prod.fst := by
    rw [← List.map_append, List.take_append_drop]
  rw [hmap] at hnd
  have hdisj : ∀ i ∈ (rows.take bs).map Prod.fst, i ∉ (rows.drop bs).map Prod.fst :=
    fun i hi hj => (List.nodup_append.mp hnd).2.2 hi hj
  have h := filter_not_contains_append (rows.take bs) (rows.drop bs) hdisj
  rw [List.take_append_drop] at h
  exact h

/-- C1, counterexample: in the single-tier memory buffer, one pushed
event is selected by flush and is gone from the buffer at selection
time, although no send has completed and no confirmation has been given
(the single-tier confirm callback is a no-op) — so removal is not "if
and only if the Sender has confirmed the batch". -/
theorem memory_flush_removes_unconfirmed_cex :
    (EventBuffer.flush (EventBuffer.push (EventBuffer.create Nat 100 50) 0)).fst = [0]
    ∧ (EventBuffer.flush (EventBuffer.push (EventBuffer.create Nat 100 50) 0)).snd.buffer
        = [] := by
  exact ⟨by decide, by decide⟩

/-- C1 (amended): overflow-tier events are removed only when confirm is
invoked — a flush without confirm leaves the two-tier buffer exactly as
it was, and confirm then removes exactly the selected (oldest) rows;
memory-tier events, in the two-tier memory path and in the single-tier
buffer alike, are instead removed at flush-selection time, before any
send completes, with confirm a no-op. -/
theorem confirm_removal_semantics :
    (∀ (E : Type) (b : SqliteEventBuffer E) (rows : List (Nat × E)),
       b.db = some rows → (rows.map Prod.fst).Nodup →
       rows.take b.flushBatchSize ≠ [] →
       (SqliteEventBuffer.flush b).events = (rows.take b.flushBatchSize).map Prod.snd
       ∧ (SqliteEventBuffer.flush b).after = b
       ∧ (SqliteEventBuffer.flush b).confirm ((SqliteEventBuffer.flush b).after)
           = { b with db := some (rows.drop b.flushBatchSize) })
    ∧ (∀ (E : Type) (b : SqliteEventBuffer E) (rows : List (Nat × E)),
       b.db = some rows → rows.take b.flushBatchSize = [] →
       (SqliteEventBuffer.flush b).events = b.inMemoryBuffer.take b.flushBatchSize
       ∧ (SqliteEventBuffer.flush b).after
           = { b with inMemoryBuffer := b.inMemoryBuffer.drop b.flushBatchSize }
       ∧ (SqliteEventBuffer.flush b).confirm ((SqliteEventBuffer.flush b).after)
           = (SqliteEventBuffer.flush b).after)
    ∧ (∀ (E : Type) (mb : EventBuffer E),
       (EventBuffer.flush mb).snd.buffer = mb.buffer.drop mb.flushBatchSize) := by
  refine ⟨?_, ?_, ?_⟩
  · intro E b rows hdb hnd hne
    obtain ⟨he, ha, hc⟩ := flush_overflow_spec b rows hdb hne
    refine ⟨he, ha, ?_⟩
    rw [hc, ha, hdb]
    simp only [Option.map_some']
    rw [filter_selected_eq_drop rows b.flushBatchSize hnd]
  · intro E b rows hdb hsel
    obtain ⟨he, ha, hc⟩ := flush_memory_spec b rows hdb hsel
    exact ⟨he, ha, hc _⟩
  · intro E mb
    rfl

/-- Witness for the confirm-semantics theorem: a two-tier buffer with
two overflow rows and batch size 1, a two-tier buffer with an empty
overflow store, and a single-tier buffer. -/
theorem confirm_removal_semantics_witness :
    ((SqliteEventBuffer.flush (⟨[9], some [(0, 7), (1, 8)], 2, 100, 1⟩ :
          SqliteEventBuffer Nat)).events = [7]
      ∧ (SqliteEventBuffer.flush (⟨[9], some [(0, 7), (1, 8)], 2, 100, 1⟩ :
          SqliteEventBuffer Nat)).after = ⟨[9], some [(0, 7), (1, 8)], 2, 100, 1⟩
      ∧ (SqliteEventBuffer.flush (⟨[9], some [(0, 7), (1, 8)], 2, 100, 1⟩ :
            SqliteEventBuffer Nat)).confirm
          ((SqliteEventBuffer.flush (⟨[9], some [(0, 7), (1, 8)], 2, 100, 1⟩ :
            SqliteEventBuffer Nat)).after) = ⟨[9], some [(1, 8)], 2, 100, 1⟩)
    ∧ ((SqliteEventBuffer.flush (⟨[4, 5], some [], 0, 100, 1⟩ :
          SqliteEventBuffer Nat)).events = [4]
      ∧ (SqliteEventBuffer.flush (⟨[4, 5], some [], 0, 100, 1⟩ :
          SqliteEventBuffer Nat)).after = ⟨[5], some [], 0, 100, 1⟩)
    ∧ (EventBuffer.flush (⟨[1, 2], 2, 1⟩ : EventBuffer Nat)).snd.buffer = [2] := by
  obtain ⟨h1e, h1a, h1c⟩ := confirm_removal_semantics.1 Nat
    ⟨[9], some [(0, 7), (1, 8)], 2, 100, 1⟩ [(0, 7), (1, 8)] rfl (by decide) (by decide)
  obtain ⟨h2e, h2a, _⟩ := confirm_removal_semantics.2.1 Nat
    ⟨[4, 5], some [], 0, 100, 1⟩ [] rfl (by decide)
  have h3 := confirm_removal_semantics.2.2 Nat (⟨[1, 2], 2, 1⟩ : EventBuffer Nat)
  exact ⟨⟨h1e.trans (by decide), h1a, h1c.trans (by decide)⟩,
         ⟨h2e.trans (by decide), h2a.trans (by decide)⟩,
         h3.trans (by decide)⟩

/-! ## C2 — rate limiting -/

/-- C2, counterexample: the sender does return {accepted 0, rejected 3}
with a Retry-After error on a 429, and the orchestrator does not invoke
confirm — but the 3-event batch was drawn from the single-tier memory
buffer, whose flush removes events at selection time, so after the 429
the buffer is empty and the next flush offers nothing: the events are
not re-deliverable. -/
theorem rate_limited_batch_not_redelivered_cex :
    EventSender.send [10, 11, 12] (HttpOutcome.status 429 (some "60"))
        = ⟨0, 3, some [⟨-1, "Rate limited. Retry after 60s"⟩]⟩
    ∧ (MoltwirePlugin.flushStep (⟨true, ⟨[10, 11, 12], 100, 50⟩, 0⟩ : PluginState Nat)
          (HttpOutcome.status 429 (some "60")) 99).buffer.buffer = []
    ∧ (EventBuffer.flush
          ((MoltwirePlugin.flushStep (⟨true, ⟨[10, 11, 12], 100, 50⟩, 0⟩ : PluginState Nat)
              (HttpOutcome.status 429 (some "60")) 99).buffer)).fst = [] := by
  refine ⟨?_, ?_, ?_⟩ <;> decide

/-- C2 (amended): a non-empty batch receiving HTTP 429 is reported as
entirely rejected (accepted 0, rejected the batch length, with an error
noting the Retry-After value); batches drawn from the overflow tier
remain in the buffer while confirm is withheld, and a subsequent flush
re-offers exactly the same events — batches drawn from the memory tier
were already removed at selection and are not re-offered. -/
theorem rate_limited_batch_rejected :
    (∀ (E : Type) (events : List E) (retryAfter : Option String), events ≠ [] →
       EventSender.send events (HttpOutcome.status 429 retryAfter)
         = ⟨0, events.length,
            some [⟨-1, "Rate limited. Retry after " ++ retryAfter.getD "null" ++ "s"⟩]⟩)
    ∧ (∀ (E : Type) (b : SqliteEventBuffer E) (rows : List (Nat × E)),
       b.db = some rows → rows.take b.flushBatchSize ≠ [] →
       (SqliteEventBuffer.flush ((SqliteEventBuffer.flush b).after)).events
           = (SqliteEventBuffer.flush b).events
       ∧ (SqliteEventBuffer.flush b).after = b) := by
  constructor
  · intro E events retryAfter hne
    have h0 : ¬ (events.length = 0) := by
      intro h; exact hne (List.length_eq_zero.mp h)
    unfold EventSender.send
    rw [if_neg h0]
    rfl
  · intro E b rows hdb hne
    obtain ⟨_, ha, _⟩ := flush_overflow_spec b rows hdb hne
    rw [ha]
    exact ⟨rfl, rfl⟩

/-- Witness for the 429 theorem: a three-event batch and an
overflow-backed buffer. -/
theorem rate_limited_batch_rejected_witness :
    EventSender.send [10, 11, 12] (HttpOutcome.status 429 (some "60"))
        = ⟨0, [10, 11, 12].length,
           some [⟨-1, "Rate limited. Retry after " ++ (some "60").getD "null" ++ "s"⟩]⟩
    ∧ (SqliteEventBuffer.flush
          ((SqliteEventBuffer.flush (⟨[], some [(0, 7)], 1, 100, 50⟩ :
              SqliteEventBuffer Nat)).after)).events
        = (SqliteEventBuffer.flush (⟨[], some [(0, 7)], 1, 100, 50⟩ :
              SqliteEventBuffer Nat)).events :=
  ⟨rate_limited_batch_rejected.1 Nat [10, 11, 12] (some "60") (by decide),
   (rate_limited_batch_rejected.2 Nat ⟨[], some [(0, 7)], 1, 100, 50⟩ [(0, 7)]
      rfl (by decide)).1⟩


end Moltwire
